import Mathlib

/-!
Shallow embedding of the coordinate-reconciliation and segment-aggregation
pipeline of `surya/scripts/pipeline.py`, together with theorems settling the
frozen claims about it.

Python floats are modelled by `ℚ` (the concrete values appearing in the
pipeline are small and exactly representable); Python `int()` is truncation
toward zero (`pyInt`); Python lists are `List`; the external collaborators
(PDF rendering, the layout and recognition models, the filesystem) appear as
explicit inputs: directory listings become `List String`, `Image.open(..).size`
becomes a function `String → ℕ × ℕ`, the recognizer becomes a function from a
file name to its predictions' line texts.
-/

namespace Surya

/-- Python `int()` applied to a rational: truncation toward zero
(`-⌊-q⌋ = ⌈q⌉` on the negative branch). -/
def pyInt (q : ℚ) : ℤ := if 0 ≤ q then ⌊q⌋ else -⌊-q⌋

/-- A bounding box in floating-point coordinates, as unpacked on
`pipeline.py:78` (`x1, y1, x2, y2 = map(float, box["bbox"])`) and
`pipeline.py:123`. -/
structure BoxQ where
  x1 : ℚ
  y1 : ℚ
  x2 : ℚ
  y2 : ℚ
deriving DecidableEq

/-- An integer pixel box `(new_x1, new_y1, new_x2, new_y2)` as passed to
`Image.crop` on `pipeline.py:99` / `pipeline.py:138`. -/
structure IntBox where
  x1 : ℤ
  y1 : ℤ
  x2 : ℤ
  y2 : ℤ
deriving DecidableEq

/-- The real-valued scale–margin–clamp step of
`crop_clean_segments_with_margin` (`pipeline.py:80`–`94`), before `int()`
truncation.  Returns `(x1', y1', x2', y2')` where e.g.
`x1' = max(0, x1*scale_x - margin_x_ratio*width)` with
`width = x2*scale_x - x1*scale_x`. -/
def scaledClamped (sx sy mxr myr : ℚ) (ow oh : ℕ) (b : BoxQ) : ℚ × ℚ × ℚ × ℚ :=
  (max 0 (b.x1 * sx - mxr * (b.x2 * sx - b.x1 * sx)),
   max 0 (b.y1 * sy - myr * (b.y2 * sy - b.y1 * sy)),
   min (ow : ℚ) (b.x2 * sx + mxr * (b.x2 * sx - b.x1 * sx)),
   min (oh : ℚ) (b.y2 * sy + myr * (b.y2 * sy - b.y1 * sy)))

/-- `int()` truncation of all four clamped coordinates
(`pipeline.py:91`–`94` / `130`–`133`). -/
def truncBox (c : ℚ × ℚ × ℚ × ℚ) : IntBox :=
  ⟨pyInt c.1, pyInt c.2.1, pyInt c.2.2.1, pyInt c.2.2.2⟩

/-- The degeneracy test `if new_x2 <= new_x1 or new_y2 <= new_y1: continue`
(`pipeline.py:96`–`97` / `135`–`136`): a degenerate truncated box yields no
crop. -/
def checkBox (ib : IntBox) : Option IntBox :=
  if ib.x2 ≤ ib.x1 ∨ ib.y2 ≤ ib.y1 then none else some ib

/-- The per-box computation of `crop_clean_segments_with_margin`
(`pipeline.py:80`–`97`): scale by `(sx, sy)`, expand by the margin ratios,
clamp to `[0, ow] × [0, oh]`, truncate with `int()`, and reject degenerate
truncated boxes. -/
def rescaleBox (sx sy mxr myr : ℚ) (ow oh : ℕ) (b : BoxQ) : Option IntBox :=
  checkBox (truncBox (scaledClamped sx sy mxr myr ow oh b))

/-- The real-valued margin–clamp step of `crop_segments_from_image`
(`pipeline.py:123`–`133`): no scaling, a single margin ratio on both axes. -/
def scaledClampedDirect (mr : ℚ) (ow oh : ℕ) (b : BoxQ) : ℚ × ℚ × ℚ × ℚ :=
  (max 0 (b.x1 - mr * (b.x2 - b.x1)),
   max 0 (b.y1 - mr * (b.y2 - b.y1)),
   min (ow : ℚ) (b.x2 + mr * (b.x2 - b.x1)),
   min (oh : ℚ) (b.y2 + mr * (b.y2 - b.y1)))

/-- The per-box computation of `crop_segments_from_image`
(`pipeline.py:123`–`136`). -/
def rescaleBoxDirect (mr : ℚ) (ow oh : ℕ) (b : BoxQ) : Option IntBox :=
  checkBox (truncBox (scaledClampedDirect mr ow oh b))

/-- Segment file name of the document-mode cropper
(`pipeline.py:100`: `f"{doc_key}_page_{page_num}_box_{idx + 1}.png"`). -/
def mkSegName (doc_key : String) (page_num : ℤ) (k : ℕ) : String :=
  doc_key ++ "_page_" ++ toString page_num ++ "_box_" ++ toString k ++ ".png"

/-- Segment file name of the direct-mode cropper
(`pipeline.py:139`: `f"image_box_{idx + 1}.png"`). -/
def mkImgName (k : ℕ) : String :=
  "image_box_" ++ toString k ++ ".png"

/-- The common shape of the two crop loops (`pipeline.py:77`–`103` and
`122`–`142`): enumerate the boxes from `0`, apply the per-box computation
`f`, skip rejected boxes, and record a file (name, crop bounds) for each
accepted box, named by `1 +` the box's enumeration index. -/
def cropLoop (f : BoxQ → Option IntBox) (name : ℕ → String) :
    ℕ → List BoxQ → List (String × IntBox)
  | _, [] => []
  | idx, b :: rest =>
    match f b with
    | none => cropLoop f name (idx + 1) rest
    | some ib => (name (idx + 1), ib) :: cropLoop f name (idx + 1) rest

/-- The per-page crop loop of `crop_clean_segments_with_margin`
(`pipeline.py:77`–`103`). -/
def cropBoxes (dk : String) (pn : ℤ) (sx sy mxr myr : ℚ) (ow oh : ℕ)
    (boxes : List BoxQ) : List (String × IntBox) :=
  cropLoop (rescaleBox sx sy mxr myr ow oh) (mkSegName dk pn) 0 boxes

/-- The crop loop of `crop_segments_from_image` (`pipeline.py:115`–`142`),
as the list of (file name, crop bounds) pairs it writes. -/
def crop_segments_from_image (mr : ℚ) (ow oh : ℕ)
    (boxes : List BoxQ) : List (String × IntBox) :=
  cropLoop (rescaleBoxDirect mr ow oh) mkImgName 0 boxes

/-- Splits off the maximal leading digit run of a character list. -/
def takeDigits : List Char → List Char × List Char
  | [] => ([], [])
  | c :: cs =>
    if c.isDigit then
      let p := takeDigits cs
      (c :: p.1, p.2)
    else ([], c :: cs)

/-- Decimal value of a digit run. -/
def digitsVal (ds : List Char) : ℕ :=
  ds.foldl (fun a c => 10 * a + (c.toNat - 48)) 0

/-- Whether the regex `box_(\d+)` matches at the head of the list, and the
value of its capture group (the maximal digit run). -/
def headBoxNum : List Char → Option ℕ
  | 'b' :: 'o' :: 'x' :: '_' :: rest =>
    match takeDigits rest with
    | ([], _) => none
    | (ds, _) => some (digitsVal ds)
  | _ => none

/-- `re.search(r"box_(\d+)", ...)`: leftmost match, scanning positions left
to right. -/
def searchBoxNum : List Char → Option ℕ
  | [] => none
  | c :: cs =>
    match headBoxNum (c :: cs) with
    | some n => some n
    | none => searchBoxNum cs

/-- `extract_box_number` (`pipeline.py:157`–`159`): the captured number, or
`none` standing for Python's `float('inf')` when the pattern does not
match. -/
def extract_box_number (fname : String) : Option ℕ :=
  searchBoxNum fname.data

/-- Order on sort keys: `none` models `float('inf')` and compares above
every number. -/
def keyLE : Option ℕ → Option ℕ → Bool
  | _, none => true
  | none, some _ => false
  | some a, some b => a ≤ b

/-- Stable insertion of a file before the first file with a `≥` key. -/
def insertByKey (a : String) : List String → List String
  | [] => [a]
  | b :: l =>
    if keyLE (extract_box_number a) (extract_box_number b) then a :: b :: l
    else b :: insertByKey a l

/-- `files.sort(key=extract_box_number)` (`pipeline.py:161`).  Python's sort
is stable; insertion sort is the stable sort by the same key, so it computes
the identical list. -/
def sortFiles : List String → List String
  | [] => []
  | a :: l => insertByKey a (sortFiles l)

/-- Membership test used by `listStartsWith`/`strEndsWith`. -/
def listStartsWith : List Char → List Char → Bool
  | _, [] => true
  | [], _ :: _ => false
  | a :: as, b :: bs => a == b && listStartsWith as bs

/-- Python `str.endswith`. -/
def strEndsWith (s pat : String) : Bool :=
  listStartsWith s.data.reverse pat.data.reverse

/-- Substring containment scanning positions left to right. -/
def listContainsSub (pat : List Char) : List Char → Bool
  | [] => listStartsWith [] pat
  | c :: rest => listStartsWith (c :: rest) pat || listContainsSub pat rest

/-- Python `pat in s`. -/
def strContains (s pat : String) : Bool :=
  listContainsSub pat.data s.data

/-- ASCII whitespace as stripped by Python `str.strip()` (space, tab,
newline, carriage return, vertical tab, form feed). -/
def isSpaceChar (c : Char) : Bool :=
  c = ' ' || c = '\t' || c = '\n' || c = '\r' ||
    c = Char.ofNat 11 || c = Char.ofNat 12

/-- Python `str.strip()`. -/
def pyStrip (s : String) : String :=
  ⟨((s.data.dropWhile isSpaceChar).reverse.dropWhile isSpaceChar).reverse⟩

/-- The accumulation `segment_text += line.text + "\n"` over the
recognizer's predictions and their text lines (`pipeline.py:170`–`173`). -/
def segTextRaw (predLines : List (List String)) : String :=
  predLines.foldl (fun acc lines2 => lines2.foldl (fun a t => a ++ t ++ "\n") acc) ""

/-- One artifact's report entry (`pipeline.py:165`–`178`): join the
recognized lines, replace a blank result by the sentinel, and emit
`[fname]` followed by the stripped text and a blank line.  `recog` is the
external recognition capability, giving each artifact's predictions' line
texts. -/
def segEntry (recog : String → List (List String)) (fname : String) : String :=
  let st := segTextRaw (recog fname)
  let st2 := if pyStrip st = "" then "<No Text Detected>" else st
  "[" ++ fname ++ "]\n" ++ pyStrip st2 ++ "\n\n"

/-- One segment folder as seen by `ocr_segments`: `page_id` abstracts
`os.path.basename(folder_path.strip("/"))` (`pipeline.py:153`) and `files`
abstracts `os.listdir(folder_path)` in directory-listing order. -/
structure SegFolder where
  page_id : String
  files : List String

/-- One folder's contribution to `full_text` (`pipeline.py:152`–`178`):
header, then the entries of the `.png` files sorted by box number. -/
def folderText (recog : String → List (List String)) (fd : SegFolder) : String :=
  let pngs := fd.files.filter (fun n => strEndsWith n ".png")
  "\n=== SEGMENTS: " ++ fd.page_id ++ " ===\n\n" ++
    (sortFiles pngs).foldl (fun acc f => acc ++ segEntry recog f) ""

/-- `ocr_segments` (`pipeline.py:145`–`184`) as the combined report text it
writes to the output file. -/
def ocr_segments (recog : String → List (List String))
    (folders : List SegFolder) : String :=
  folders.foldl (fun acc fd => acc ++ folderText recog fd) ""

/-- One page entry of the layout-results JSON: its `"page"` number and its
`"bboxes"` boxes (`pipeline.py:56`–`57`, `77`–`78`). -/
structure PageData where
  page : ℤ
  bboxes : List BoxQ

/-- Python list indexing `l[i]`, including negative indices from the end;
`none` is an `IndexError`. -/
def pyListGet {α : Type} (l : List α) (i : ℤ) : Option α :=
  if 0 ≤ i then l[i.toNat]?
  else if 0 ≤ i + l.length then l[(i + l.length).toNat]? else none

/-- The match test of the page matcher (`pipeline.py:63`): the filename
contains `_{page_num - 1}_` or ends with `_{page_num - 1}_layout.png`. -/
def pageKeyMatches (page_num : ℤ) (fname : String) : Bool :=
  strContains fname ("_" ++ toString (page_num - 1) ++ "_") ||
    strEndsWith fname ("_" ++ toString (page_num - 1) ++ "_layout.png")

/-- The matching loop of `crop_clean_segments_with_margin`
(`pipeline.py:61`–`65`): the first match in directory-listing order wins. -/
def findLayoutFile (page_num : ℤ) (layout_images : List String) : Option String :=
  layout_images.find? (pageKeyMatches page_num)

/-- One iteration of the page loop of `crop_clean_segments_with_margin`
(`pipeline.py:56`–`103`).  `pages` holds the rendered page sizes from
`convert_from_path`, `layout_images` the listing already filtered to
`_layout.png` names (`pipeline.py:54`), `lsize` each layout image's pixel
size.  Fetching a missing page render index is a Python `IndexError`
(`pipeline.py:58`); a page with no matching layout artifact is skipped with
a log message (`pipeline.py:67`–`69`). -/
def processPage (dk : String) (pages : List (ℕ × ℕ)) (layout_images : List String)
    (lsize : String → ℕ × ℕ) (mxr myr : ℚ) (pd : PageData) :
    Except String (List (String × IntBox)) :=
  match pyListGet pages (pd.page - 1) with
  | none => .error "IndexError"
  | some (ow, oh) =>
    match findLayoutFile pd.page layout_images with
    | none => .ok []
    | some fname =>
      let ls := lsize fname
      .ok (cropBoxes dk pd.page ((ow : ℚ) / (ls.1 : ℚ)) ((oh : ℚ) / (ls.2 : ℚ))
        mxr myr ow oh pd.bboxes)

/-- The page loop of `crop_clean_segments_with_margin`
(`pipeline.py:56`–`103`), accumulating every page's segment files. -/
def processPages (dk : String) (pages : List (ℕ × ℕ)) (layout_images : List String)
    (lsize : String → ℕ × ℕ) (mxr myr : ℚ) :
    List PageData → Except String (List (String × IntBox))
  | [] => .ok []
  | pd :: rest =>
    match processPage dk pages layout_images lsize mxr myr pd with
    | .error e => .error e
    | .ok s =>
      match processPages dk pages layout_images lsize mxr myr rest with
      | .error e => .error e
      | .ok r => .ok (s ++ r)

/-- The external inputs of `crop_clean_segments_with_margin`: the parsed
results JSON as an association list in key-insertion order, the rendered
page sizes, the layout directory listing, and the layout images' sizes. -/
structure DocInputs where
  layout_data : List (String × List PageData)
  pages : List (ℕ × ℕ)
  layout_dir : List String
  lsize : String → ℕ × ℕ

/-- `crop_clean_segments_with_margin` (`pipeline.py:29`–`103`) as the list
of segment files it writes, or the exception it raises.  The document-count
check (`pipeline.py:46`–`47`) happens before any page is processed. -/
def crop_clean_segments_with_margin (inp : DocInputs) (mxr myr : ℚ) :
    Except String (List (String × IntBox)) :=
  if inp.layout_data.length ≠ 1 then .error "Expected one document in JSON."
  else
    match inp.layout_data with
    | [] => .error "Expected one document in JSON."
    | (dk, page_data_list) :: _ =>
      processPages dk inp.pages
        (inp.layout_dir.filter (fun f => strEndsWith f "_layout.png"))
        inp.lsize mxr myr page_data_list

/-- The invariant required of a materialized segment's bounds on a `ow × oh`
page render. -/
def boundsOK (ow oh : ℕ) (ib : IntBox) : Prop :=
  0 ≤ ib.x1 ∧ ib.x1 < ib.x2 ∧ ib.x2 ≤ (ow : ℤ) ∧
  0 ≤ ib.y1 ∧ ib.y1 < ib.y2 ∧ ib.y2 ≤ (oh : ℤ)

/-- The sort key of a file, as compared by Python's `sort`. -/
def fkey (f : String) : Option ℕ := extract_box_number f

/-- The nondecreasing-key relation the sorted file list satisfies. -/
def KeySorted (l : List String) : Prop :=
  l.Pairwise (fun a b => keyLE (fkey a) (fkey b) = true)

theorem scaledClampedDirect_eq (mr : ℚ) (ow oh : ℕ) (b : BoxQ) :
    scaledClampedDirect mr ow oh b = scaledClamped 1 1 mr mr ow oh b := by
  simp [scaledClampedDirect, scaledClamped, mul_one]

theorem rescaleBoxDirect_eq (mr : ℚ) (ow oh : ℕ) (b : BoxQ) :
    rescaleBoxDirect mr ow oh b = rescaleBox 1 1 mr mr ow oh b := by
  rw [rescaleBoxDirect, rescaleBox, scaledClampedDirect_eq]

theorem pyInt_nonneg {q : ℚ} (h : 0 ≤ q) : 0 ≤ pyInt q := by
  rw [pyInt, if_pos h]
  exact Int.le_floor.mpr (by exact_mod_cast h)

theorem pyInt_le_int {q : ℚ} {z : ℤ} (h : q ≤ (z : ℚ)) : pyInt q ≤ z := by
  rw [pyInt]
  split
  · calc ⌊q⌋ ≤ ⌊(z : ℚ)⌋ := Int.floor_le_floor h
      _ = z := Int.floor_intCast z
  · rename_i hq
    have h2 : ((-z : ℤ) : ℚ) ≤ -q := by push_cast; linarith
    have h3 : (-z : ℤ) ≤ ⌊-q⌋ := Int.le_floor.mpr h2
    linarith

theorem pyInt_mono {a b : ℚ} (h : a ≤ b) : pyInt a ≤ pyInt b := by
  rw [pyInt, pyInt]
  split <;> split
  · exact Int.floor_le_floor h
  · rename_i ha hb
    exact absurd (le_trans ha h) hb
  · rename_i ha hb
    have h1 : ⌊-a⌋ ≥ 0 := Int.le_floor.mpr (by push_cast; linarith [lt_of_not_le ha])
    have h2 : (0 : ℤ) ≤ ⌊b⌋ := Int.le_floor.mpr (by exact_mod_cast hb)
    linarith
  · rename_i ha hb
    have := Int.floor_le_floor (neg_le_neg h)
    linarith

theorem checkBox_some {ib j : IntBox} (h : checkBox j = some ib) :
    ib = j ∧ j.x1 < j.x2 ∧ j.y1 < j.y2 := by
  rw [checkBox] at h
  split at h
  · exact absurd h (by simp)
  · rename_i hg
    push_neg at hg
    exact ⟨(Option.some_inj.mp h).symm, hg.1, hg.2⟩

theorem rescaleBox_some_bounds {sx sy mxr myr : ℚ} {ow oh : ℕ} {b : BoxQ}
    {ib : IntBox} (h : rescaleBox sx sy mxr myr ow oh b = some ib) :
    boundsOK ow oh ib := by
  rw [rescaleBox] at h
  obtain ⟨rfl, hx, hy⟩ := checkBox_some h
  refine ⟨?_, hx, ?_, ?_, hy, ?_⟩
  · exact pyInt_nonneg (le_max_left _ _)
  · exact pyInt_le_int (by exact_mod_cast min_le_left _ _)
  · exact pyInt_nonneg (le_max_left _ _)
  · exact pyInt_le_int (by exact_mod_cast min_le_left _ _)

theorem mem_cropLoop_iff (f : BoxQ → Option IntBox) (name : ℕ → String) :
    ∀ (idx : ℕ) (boxes : List BoxQ) (s : String × IntBox),
      s ∈ cropLoop f name idx boxes ↔
      ∃ (i : ℕ) (bx : BoxQ), boxes[i]? = some bx ∧ f bx = some s.2 ∧
        s.1 = name (idx + i + 1) := by
  intro idx boxes
  induction boxes generalizing idx with
  | nil => simp [cropLoop]
  | cons b rest ih =>
    intro s
    rw [cropLoop]
    cases hf : f b with
    | none =>
      rw [ih (idx + 1) s]
      constructor
      · rintro ⟨i, bx, h1, h2, h3⟩
        refine ⟨i + 1, bx, by simpa using h1, h2, ?_⟩
        rw [h3]
        congr 1
        omega
      · rintro ⟨i, bx, h1, h2, h3⟩
        cases i with
        | zero =>
          simp only [List.getElem?_cons_zero, Option.some_inj] at h1
          rw [h1] at hf
          rw [hf] at h2
          exact absurd h2 (by simp)
        | succ j =>
          refine ⟨j, bx, by simpa using h1, h2, ?_⟩
          rw [h3]
          congr 1
          omega
    | some ib =>
      simp only [List.mem_cons]
      rw [ih (idx + 1) s]
      constructor
      · rintro (rfl | ⟨i, bx, h1, h2, h3⟩)
        · exact ⟨0, b, by simp, hf, rfl⟩
        · refine ⟨i + 1, bx, by simpa using h1, h2, ?_⟩
          rw [h3]
          congr 1
          omega
      · rintro ⟨i, bx, h1, h2, h3⟩
        cases i with
        | zero =>
          simp only [List.getElem?_cons_zero, Option.some_inj] at h1
          left
          rw [h1] at hf
          rw [hf] at h2
          have h4 : s.2 = ib := (Option.some_inj.mp h2).symm
          have h5 : s.1 = name (idx + 1) := h3
          exact Prod.ext_iff.mpr ⟨h5, h4⟩
        | succ j =>
          refine Or.inr ⟨j, bx, by simpa using h1, h2, ?_⟩
          rw [h3]
          congr 1
          omega

theorem keyLE_total (a b : Option ℕ) : keyLE a b = true ∨ keyLE b a = true := by
  cases a <;> cases b <;> simp [keyLE] <;> omega

theorem keyLE_trans {a b c : Option ℕ} (h1 : keyLE a b = true)
    (h2 : keyLE b c = true) : keyLE a c = true := by
  cases a <;> cases b <;> cases c <;> simp [keyLE] at * <;> omega

theorem keyLE_antisymm {a b : Option ℕ} (h1 : keyLE a b = true)
    (h2 : keyLE b a = true) : a = b := by
  cases a <;> cases b <;> simp [keyLE] at * <;> omega

theorem insertByKey_perm (a : String) (l : List String) :
    List.Perm (insertByKey a l) (a :: l) := by
  induction l with
  | nil => rfl
  | cons b t ih =>
    rw [insertByKey]
    split
    · rfl
    · exact (ih.cons b).trans (List.Perm.swap a b t)

theorem sortFiles_perm (l : List String) : List.Perm (sortFiles l) l := by
  induction l with
  | nil => rfl
  | cons a t ih => exact (insertByKey_perm a (sortFiles t)).trans (ih.cons a)

theorem insertByKey_sorted {l : List String} (a : String) (h : KeySorted l) :
    KeySorted (insertByKey a l) := by
  induction l with
  | nil => simp [insertByKey, KeySorted]
  | cons b t ih =>
    rw [insertByKey]
    split
    · rename_i hab
      refine List.Pairwise.cons ?_ h
      intro x hx
      rcases List.mem_cons.mp hx with rfl | hxt
      · exact hab
      · exact keyLE_trans hab (List.rel_of_pairwise_cons h hxt)
    · rename_i hab
      have hba : keyLE (fkey b) (fkey a) = true := by
        rcases keyLE_total (fkey a) (fkey b) with h1 | h1
        · exact absurd h1 hab
        · exact h1
      rw [KeySorted, List.pairwise_cons] at h
      refine List.Pairwise.cons ?_ (ih h.2)
      intro x hx
      rcases List.mem_cons.mp ((insertByKey_perm a t).mem_iff.mp hx) with rfl | hxt
      · exact hba
      · exact h.1 x hxt

theorem sortFiles_sorted (l : List String) : KeySorted (sortFiles l) := by
  induction l with
  | nil => simp [sortFiles, KeySorted]
  | cons a t ih => exact insertByKey_sorted a ih

/-- Two key-sorted permutations of a file set with pairwise-distinct keys
are equal: with no ties, the sorted order is unique. -/
theorem sorted_perm_distinct_eq :
    ∀ (s1 s2 : List String), List.Perm s1 s2 → KeySorted s1 → KeySorted s2 →
      s1.Pairwise (fun a b => fkey a ≠ fkey b) → s1 = s2 := by
  intro s1
  induction s1 with
  | nil =>
    intro s2 hp _ _ _
    exact hp.nil_eq
  | cons a t1 ih =>
    intro s2 hp hs1 hs2 hd
    cases s2 with
    | nil => exact absurd hp.length_eq (by simp)
    | cons b t2 =>
      by_cases hab : a = b
      · subst hab
        rw [KeySorted, List.pairwise_cons] at hs1 hs2
        rw [List.pairwise_cons] at hd
        rw [ih t2 hp.cons_inv hs1.2 hs2.2 hd.2]
      · have hbmem : b ∈ t1 := by
          have := hp.symm.mem_iff.mp (List.mem_cons_self b t2)
          rcases List.mem_cons.mp this with rfl | h
          · exact absurd rfl hab
          · exact h
        have hamem : a ∈ t2 := by
          have := hp.mem_iff.mp (List.mem_cons_self a t1)
          rcases List.mem_cons.mp this with rfl | h
          · exact absurd rfl hab
          · exact h
        have h1 : keyLE (fkey a) (fkey b) = true :=
          List.rel_of_pairwise_cons hs1 hbmem
        have h2 : keyLE (fkey b) (fkey a) = true :=
          List.rel_of_pairwise_cons hs2 hamem
        have h3 : fkey a ≠ fkey b := List.rel_of_pairwise_cons hd hbmem
        exact absurd (keyLE_antisymm h1 h2) h3

/-- `List.find?` returns the first element satisfying the test, in listing
order. -/
theorem find?_first {α : Type} (P : α → Bool) :
    ∀ (l : List α) (f : α),
      l.find? P = some f ↔
      ∃ i : ℕ, l[i]? = some f ∧ P f = true ∧
        ∀ (j : ℕ) (g : α), j < i → l[j]? = some g → P g = false := by
  intro l
  induction l with
  | nil => simp
  | cons a t ih =>
    intro f
    by_cases hP : P a = true
    · rw [List.find?_cons_of_pos _ hP]
      constructor
      · intro h
        have haf : a = f := Option.some_inj.mp h
        subst haf
        exact ⟨0, by simp, hP, fun j g hj _ => absurd hj (by omega)⟩
      · rintro ⟨i, h1, h2, h3⟩
        cases i with
        | zero => simpa using h1
        | succ j =>
          have := h3 0 a (by omega) (by simp)
          rw [hP] at this
          exact absurd this (by simp)
    · rw [List.find?_cons_of_neg _ (by simpa using hP)]
      rw [ih f]
      constructor
      · rintro ⟨i, h1, h2, h3⟩
        refine ⟨i + 1, by simpa using h1, h2, ?_⟩
        intro j g hj hg
        cases j with
        | zero =>
          simp only [List.getElem?_cons_zero, Option.some_inj] at hg
          rw [← hg]
          simpa using hP
        | succ k => exact h3 k g (by omega) (by simpa using hg)
      · rintro ⟨i, h1, h2, h3⟩
        cases i with
        | zero =>
          simp only [List.getElem?_cons_zero, Option.some_inj] at h1
          rw [h1] at hP
          exact absurd h2 hP
        | succ j =>
          refine ⟨j, by simpa using h1, h2, ?_⟩
          intro k g hk hg
          exact h3 (k + 1) g (by omega) (by simpa using hg)

theorem cropLoop_cons_none {f : BoxQ → Option IntBox} {name : ℕ → String}
    {idx : ℕ} {b : BoxQ} {rest : List BoxQ} (h : f b = none) :
    cropLoop f name idx (b :: rest) = cropLoop f name (idx + 1) rest := by
  rw [cropLoop, h]

/-- A degeneracy at the level of the truncated integers forces a skip. -/
theorem rescaleBox_none_of_int_deg {sx sy mxr myr : ℚ} {ow oh : ℕ} {b : BoxQ}
    (h : pyInt (scaledClamped sx sy mxr myr ow oh b).2.2.1 ≤
           pyInt (scaledClamped sx sy mxr myr ow oh b).1 ∨
         pyInt (scaledClamped sx sy mxr myr ow oh b).2.2.2 ≤
           pyInt (scaledClamped sx sy mxr myr ow oh b).2.1) :
    rescaleBox sx sy mxr myr ow oh b = none := by
  rw [rescaleBox, checkBox]
  exact if_pos h

/-- A degeneracy already present in the clamped real coordinates forces a
skip, via monotonicity of truncation. -/
theorem rescaleBox_none_of_real_deg {sx sy mxr myr : ℚ} {ow oh : ℕ} {b : BoxQ}
    (h : (scaledClamped sx sy mxr myr ow oh b).2.2.1 ≤
           (scaledClamped sx sy mxr myr ow oh b).1 ∨
         (scaledClamped sx sy mxr myr ow oh b).2.2.2 ≤
           (scaledClamped sx sy mxr myr ow oh b).2.1) :
    rescaleBox sx sy mxr myr ow oh b = none := by
  refine rescaleBox_none_of_int_deg ?_
  rcases h with h | h
  · exact Or.inl (pyInt_mono h)
  · exact Or.inr (pyInt_mono h)

/-- The only exception `processPage` can model is the render-list
`IndexError` (`pipeline.py:58`). -/
theorem processPage_error_eq {dk : String} {pages : List (ℕ × ℕ)}
    {li : List String} {ls : String → ℕ × ℕ} {mxr myr : ℚ} {pd : PageData}
    {e : String} (h : processPage dk pages li ls mxr myr pd = .error e) :
    e = "IndexError" := by
  rw [processPage] at h
  cases hg : pyListGet pages (pd.page - 1) with
  | none =>
    rw [hg] at h
    injection h with h'
    exact h'.symm
  | some p =>
    obtain ⟨ow, oh⟩ := p
    rw [hg] at h
    cases hf : findLayoutFile pd.page li with
    | none => rw [hf] at h; exact absurd h (by simp)
    | some fn => rw [hf] at h; exact absurd h (by simp)

/-- The page loop never raises the document-count error: its only possible
exception is an `IndexError` from a page entry. -/
theorem processPages_no_doc_error (dk : String) (pages : List (ℕ × ℕ))
    (li : List String) (ls : String → ℕ × ℕ) (mxr myr : ℚ) :
    ∀ pds : List PageData,
      processPages dk pages li ls mxr myr pds ≠
        Except.error "Expected one document in JSON." := by
  intro pds
  induction pds with
  | nil => simp [processPages]
  | cons pd rest ih =>
    rw [processPages]
    cases hp : processPage dk pages li ls mxr myr pd with
    | error e =>
      have he : e = "IndexError" := processPage_error_eq hp
      subst he
      simp
    | ok s =>
      cases hr : processPages dk pages li ls mxr myr rest with
      | error e =>
        rw [hr] at ih
        have hne : e ≠ "Expected one document in JSON." := fun hc => ih (by rw [hc])
        simp [hne]
      | ok r => simp

/-- A page whose layout artifact is missing contributes no segments and
leaves the processing of the remaining pages unchanged. -/
theorem processPages_cons_skip {dk : String} {pages : List (ℕ × ℕ)}
    {li : List String} {ls : String → ℕ × ℕ} {mxr myr : ℚ} {pd : PageData}
    (hok : processPage dk pages li ls mxr myr pd = .ok []) :
    ∀ rest : List PageData,
      processPages dk pages li ls mxr myr (pd :: rest) =
        processPages dk pages li ls mxr myr rest := by
  intro rest
  rw [processPages, hok]
  cases hr : processPages dk pages li ls mxr myr rest with
  | error e => simp
  | ok r => simp

/-- C1: every segment materialized by either cropper (document mode or
direct mode) has integer bounds satisfying `0 ≤ x1 < x2 ≤ page_width` and
`0 ≤ y1 < y2 ≤ page_height` of the originating page render. -/
theorem C1_segment_bounds (dk : String) (pn : ℤ) (sx sy mxr myr mr : ℚ)
    (ow oh : ℕ) (boxes : List BoxQ) (s : String × IntBox) :
    (s ∈ cropBoxes dk pn sx sy mxr myr ow oh boxes → boundsOK ow oh s.2) ∧
    (s ∈ crop_segments_from_image mr ow oh boxes → boundsOK ow oh s.2) := by
  constructor
  · intro hs
    simp only [cropBoxes] at hs
    obtain ⟨i, bx, h1, h2, h3⟩ :=
      (mem_cropLoop_iff (rescaleBox sx sy mxr myr ow oh) (mkSegName dk pn)
        0 boxes s).mp hs
    exact rescaleBox_some_bounds h2
  · intro hs
    simp only [crop_segments_from_image] at hs
    obtain ⟨i, bx, h1, h2, h3⟩ :=
      (mem_cropLoop_iff (rescaleBoxDirect mr ow oh) mkImgName 0 boxes s).mp hs
    rw [rescaleBoxDirect_eq] at h2
    exact rescaleBox_some_bounds h2

/-- Witness for C1: the segment materialized for the box (1,1,9,9) on a
100×100 render satisfies the bounds invariant. -/
theorem C1_segment_bounds_witness : boundsOK 100 100 ⟨1, 1, 9, 9⟩ :=
  (C1_segment_bounds "d" 1 1 1 0 0 0 100 100 [⟨1, 1, 9, 9⟩]
      (mkImgName 1, ⟨1, 1, 9, 9⟩)).2
    (by norm_num [crop_segments_from_image, cropLoop, rescaleBoxDirect,
      scaledClampedDirect, truncBox, checkBox, pyInt])

/-- C2: in document mode, the box (10,10,110,60) in a 200×100 layout image
against a 400×200 render with 5% margins on each axis produces exactly the
integer crop box (10,15,230,125); the scale factors are computed as
render size over layout size. -/
theorem C2_scenario :
    rescaleBox ((400 : ℚ) / 200) ((200 : ℚ) / 100) (5 / 100) (5 / 100) 400 200
      ⟨10, 10, 110, 60⟩ = some ⟨10, 15, 230, 125⟩ := by
  norm_num [rescaleBox, scaledClamped, pyInt, truncBox, checkBox]

/-- C4: a box whose scaled, margin-expanded and clamped real coordinates
satisfy `x2' ≤ x1'` or `y2' ≤ y1'` is rejected by both croppers: no segment
file is recorded for it, no error is raised, and the cropper's output on the
remaining boxes is unchanged. -/
theorem C4_degenerate_skip (sx sy mxr myr mr : ℚ) (ow oh : ℕ) (b : BoxQ) :
    ((scaledClamped sx sy mxr myr ow oh b).2.2.1 ≤
        (scaledClamped sx sy mxr myr ow oh b).1 ∨
     (scaledClamped sx sy mxr myr ow oh b).2.2.2 ≤
        (scaledClamped sx sy mxr myr ow oh b).2.1 →
      rescaleBox sx sy mxr myr ow oh b = none ∧
      ∀ (dk : String) (pn : ℤ) (idx : ℕ) (rest : List BoxQ),
        cropLoop (rescaleBox sx sy mxr myr ow oh) (mkSegName dk pn) idx
            (b :: rest) =
          cropLoop (rescaleBox sx sy mxr myr ow oh) (mkSegName dk pn) (idx + 1)
            rest) ∧
    ((scaledClampedDirect mr ow oh b).2.2.1 ≤
        (scaledClampedDirect mr ow oh b).1 ∨
     (scaledClampedDirect mr ow oh b).2.2.2 ≤
        (scaledClampedDirect mr ow oh b).2.1 →
      rescaleBoxDirect mr ow oh b = none ∧
      ∀ (idx : ℕ) (rest : List BoxQ),
        cropLoop (rescaleBoxDirect mr ow oh) mkImgName idx (b :: rest) =
          cropLoop (rescaleBoxDirect mr ow oh) mkImgName (idx + 1) rest) := by
  constructor
  · intro h
    have hn := rescaleBox_none_of_real_deg h
    exact ⟨hn, fun dk pn idx rest => cropLoop_cons_none hn⟩
  · intro h
    rw [scaledClampedDirect_eq] at h
    have hn : rescaleBoxDirect mr ow oh b = none := by
      rw [rescaleBoxDirect_eq]
      exact rescaleBox_none_of_real_deg h
    exact ⟨hn, fun idx rest => cropLoop_cons_none hn⟩

/-- Witness for C4: the box that scales to (100,100,100,105) — zero width —
is rejected and no segment is produced. -/
theorem C4_degenerate_skip_witness :
    rescaleBox 1 1 (5/100) (5/100) 400 400 ⟨100, 100, 100, 105⟩ = none :=
  ((C4_degenerate_skip 1 1 (5/100) (5/100) (5/100) 400 400
      ⟨100, 100, 100, 105⟩).1 (by norm_num [scaledClamped])).1

/-- C9: the degeneracy test is applied to the integer-truncated coordinates:
a box whose clamped real bounds have strictly positive width and height but
whose bounds truncate to equal integers on some axis is also silently
skipped by both croppers. -/
theorem C9_subpixel_skip (sx sy mxr myr mr : ℚ) (ow oh : ℕ) (b : BoxQ) :
    ((scaledClamped sx sy mxr myr ow oh b).1 <
        (scaledClamped sx sy mxr myr ow oh b).2.2.1 →
     (scaledClamped sx sy mxr myr ow oh b).2.1 <
        (scaledClamped sx sy mxr myr ow oh b).2.2.2 →
     (pyInt (scaledClamped sx sy mxr myr ow oh b).2.2.1 ≤
        pyInt (scaledClamped sx sy mxr myr ow oh b).1 ∨
      pyInt (scaledClamped sx sy mxr myr ow oh b).2.2.2 ≤
        pyInt (scaledClamped sx sy mxr myr ow oh b).2.1) →
      rescaleBox sx sy mxr myr ow oh b = none ∧
      ∀ (dk : String) (pn : ℤ) (idx : ℕ) (rest : List BoxQ),
        cropLoop (rescaleBox sx sy mxr myr ow oh) (mkSegName dk pn) idx
            (b :: rest) =
          cropLoop (rescaleBox sx sy mxr myr ow oh) (mkSegName dk pn) (idx + 1)
            rest) ∧
    ((scaledClampedDirect mr ow oh b).1 <
        (scaledClampedDirect mr ow oh b).2.2.1 →
     (scaledClampedDirect mr ow oh b).2.1 <
        (scaledClampedDirect mr ow oh b).2.2.2 →
     (pyInt (scaledClampedDirect mr ow oh b).2.2.1 ≤
        pyInt (scaledClampedDirect mr ow oh b).1 ∨
      pyInt (scaledClampedDirect mr ow oh b).2.2.2 ≤
        pyInt (scaledClampedDirect mr ow oh b).2.1) →
      rescaleBoxDirect mr ow oh b = none ∧
      ∀ (idx : ℕ) (rest : List BoxQ),
        cropLoop (rescaleBoxDirect mr ow oh) mkImgName idx (b :: rest) =
          cropLoop (rescaleBoxDirect mr ow oh) mkImgName (idx + 1) rest) := by
  constructor
  · intro _ _ h
    have hn := rescaleBox_none_of_int_deg h
    exact ⟨hn, fun dk pn idx rest => cropLoop_cons_none hn⟩
  · intro _ _ h
    rw [scaledClampedDirect_eq] at h
    have hn : rescaleBoxDirect mr ow oh b = none := by
      rw [rescaleBoxDirect_eq]
      exact rescaleBox_none_of_int_deg h
    exact ⟨hn, fun idx rest => cropLoop_cons_none hn⟩

/-- Witness for C9: the sub-pixel-wide box (100.2, 10, 100.9, 20) has
positive real width 0.7 after clamping, yet truncates to x-bounds 100 = 100
and is skipped. -/
theorem C9_subpixel_skip_witness :
    rescaleBox 1 1 0 0 200 200 ⟨501/5, 10, 1009/10, 20⟩ = none :=
  ((C9_subpixel_skip 1 1 0 0 0 200 200 ⟨501/5, 10, 1009/10, 20⟩).1
    (by norm_num [scaledClamped]) (by norm_num [scaledClamped])
    (by norm_num [scaledClamped, pyInt])).1

/-- C5 counterexample: with unit scales and zero margins, the out-of-bounds
box (-2, 0, 10, 10) on a 100×100 render materializes as (0, 0, 10, 10),
whose first coordinate is not int(-2) = -2: the computed crop box is not the
input box truncated to integers, because clamping precedes truncation. -/
theorem C5_counterexample :
    rescaleBox 1 1 0 0 100 100 ⟨-2, 0, 10, 10⟩ = some ⟨0, 0, 10, 10⟩ ∧
    pyInt (-2 : ℚ) = -2 ∧ (0 : ℤ) ≠ -2 :=
  ⟨by norm_num [rescaleBox, scaledClamped, truncBox, checkBox, pyInt],
   by norm_num [pyInt], by decide⟩

/-- C5 (amended): for input boxes within the page bounds (`0 ≤ x1`,
`0 ≤ y1`, `x2 ≤ page_width`, `y2 ≤ page_height`), when both scales are 1 and
both margin ratios are 0, any materialized crop box equals the input box
with each of the four coordinates truncated to an integer, in both
croppers. -/
theorem C5_identity_inbounds (ow oh : ℕ) (b : BoxQ)
    (hx1 : 0 ≤ b.x1) (hy1 : 0 ≤ b.y1)
    (hx2 : b.x2 ≤ (ow : ℚ)) (hy2 : b.y2 ≤ (oh : ℚ)) :
    (∀ ib : IntBox, rescaleBox 1 1 0 0 ow oh b = some ib →
      ib = ⟨pyInt b.x1, pyInt b.y1, pyInt b.x2, pyInt b.y2⟩) ∧
    (∀ ib : IntBox, rescaleBoxDirect 0 ow oh b = some ib →
      ib = ⟨pyInt b.x1, pyInt b.y1, pyInt b.x2, pyInt b.y2⟩) := by
  have hc : scaledClamped 1 1 0 0 ow oh b = (b.x1, b.y1, b.x2, b.y2) := by
    simp only [scaledClamped, mul_one, zero_mul, sub_zero, add_zero]
    rw [max_eq_right hx1, max_eq_right hy1, min_eq_right hx2, min_eq_right hy2]
  constructor
  · intro ib h
    rw [rescaleBox, hc] at h
    exact (checkBox_some h).1
  · intro ib h
    rw [rescaleBoxDirect_eq, rescaleBox, hc] at h
    exact (checkBox_some h).1

/-- Witness for the amended C5 at the in-bounds box (3/2, 2, 10, 20). -/
theorem C5_identity_inbounds_witness :
    (⟨1, 2, 10, 20⟩ : IntBox) =
      ⟨pyInt (3/2 : ℚ), pyInt (2 : ℚ), pyInt (10 : ℚ), pyInt (20 : ℚ)⟩ :=
  (C5_identity_inbounds 100 100 ⟨3/2, 2, 10, 20⟩ (by norm_num) (by norm_num)
      (by norm_num) (by norm_num)).1 ⟨1, 2, 10, 20⟩
    (by norm_num [rescaleBox, scaledClamped, truncBox, checkBox, pyInt])

/-- C10: a segment is materialized exactly for the accepted boxes, and its
file-name ordinal is `1 +` the box's position in the page's box list,
independent of how many earlier boxes were skipped: skipped boxes leave
gaps in the numbering instead of renumbering later boxes. -/
theorem C10_ordinal (dk : String) (pn : ℤ) (sx sy mxr myr mr : ℚ)
    (ow oh : ℕ) (boxes : List BoxQ) (s : String × IntBox) :
    (s ∈ cropBoxes dk pn sx sy mxr myr ow oh boxes ↔
      ∃ (i : ℕ) (bx : BoxQ), boxes[i]? = some bx ∧
        rescaleBox sx sy mxr myr ow oh bx = some s.2 ∧
        s.1 = mkSegName dk pn (i + 1)) ∧
    (s ∈ crop_segments_from_image mr ow oh boxes ↔
      ∃ (i : ℕ) (bx : BoxQ), boxes[i]? = some bx ∧
        rescaleBoxDirect mr ow oh bx = some s.2 ∧
        s.1 = mkImgName (i + 1)) := by
  constructor
  · have h := mem_cropLoop_iff (rescaleBox sx sy mxr myr ow oh)
      (mkSegName dk pn) 0 boxes s
    simpa only [cropBoxes, Nat.zero_add] using h
  · have h := mem_cropLoop_iff (rescaleBoxDirect mr ow oh) mkImgName 0 boxes s
    simpa only [crop_segments_from_image, Nat.zero_add] using h

/-- Witness for C10: with a degenerate first box, the second box still
materializes under ordinal 2, leaving a gap at ordinal 1. -/
theorem C10_ordinal_witness :
    (mkSegName "d" 1 2, (⟨1, 1, 9, 9⟩ : IntBox)) ∈
      cropBoxes "d" 1 1 1 0 0 10 10 [⟨100, 100, 100, 100⟩, ⟨1, 1, 9, 9⟩] :=
  (C10_ordinal "d" 1 1 1 0 0 0 10 10 [⟨100, 100, 100, 100⟩, ⟨1, 1, 9, 9⟩]
      (mkSegName "d" 1 2, ⟨1, 1, 9, 9⟩)).1.mpr
    ⟨1, ⟨1, 1, 9, 9⟩, by decide,
      by norm_num [rescaleBox, scaledClamped, truncBox, checkBox, pyInt], rfl⟩

/-- C7: the document-mode run aborts with the document-count error exactly
when the parsed layout JSON does not have exactly one top-level document
entry; the error is raised before any page is processed, and when there is
exactly one entry that error can never be raised. -/
theorem C7_doc_check (inp : DocInputs) (mxr myr : ℚ) :
    (inp.layout_data.length ≠ 1 →
      crop_clean_segments_with_margin inp mxr myr =
        .error "Expected one document in JSON.") ∧
    (inp.layout_data.length = 1 →
      crop_clean_segments_with_margin inp mxr myr ≠
        .error "Expected one document in JSON.") := by
  constructor
  · intro h
    rw [crop_clean_segments_with_margin, if_pos h]
  · intro h
    rcases hl : inp.layout_data with _ | ⟨⟨dk, pdl⟩, t⟩
    · rw [hl] at h
      simp at h
    · have h1 : ((dk, pdl) :: t).length = 1 := by rw [← hl]; exact h
      rw [crop_clean_segments_with_margin, hl, if_neg (not_not_intro h1)]
      exact processPages_no_doc_error dk inp.pages
        (inp.layout_dir.filter (fun f => strEndsWith f "_layout.png"))
        inp.lsize mxr myr pdl

/-- Witness for C7: a one-document input never raises the document-count
error. -/
theorem C7_doc_check_witness :
    crop_clean_segments_with_margin ⟨[("doc", [])], [], [], fun _ => (1, 1)⟩ 0 0 ≠
      Except.error "Expected one document in JSON." :=
  (C7_doc_check ⟨[("doc", [])], [], [], fun _ => (1, 1)⟩ 0 0).2 (by decide)

/-- C6: the page matcher selects the first filename in directory-listing
order that matches the page's predecessor index, and a page with no
matching layout artifact contributes no segments while the processing of
the remaining pages is unchanged (skip, not error). -/
theorem C6_page_matcher (p : ℤ) (files : List String) (dk : String)
    (pages : List (ℕ × ℕ)) (li : List String) (ls : String → ℕ × ℕ)
    (mxr myr : ℚ) (pd : PageData) (rest : List PageData) :
    (∀ f, findLayoutFile p files = some f ↔
      ∃ i : ℕ, files[i]? = some f ∧ pageKeyMatches p f = true ∧
        ∀ (j : ℕ) (g : String), j < i → files[j]? = some g →
          pageKeyMatches p g = false) ∧
    (findLayoutFile pd.page li = none →
      ∀ ow oh : ℕ, pyListGet pages (pd.page - 1) = some (ow, oh) →
        processPage dk pages li ls mxr myr pd = .ok [] ∧
        processPages dk pages li ls mxr myr (pd :: rest) =
          processPages dk pages li ls mxr myr rest) := by
  constructor
  · intro f
    exact find?_first (pageKeyMatches p) files f
  · intro hnone ow oh hg
    have hok : processPage dk pages li ls mxr myr pd = .ok [] := by
      rw [processPage, hg, hnone]
    exact ⟨hok, processPages_cons_skip hok rest⟩

/-- Witness for C6: page 1 with no matching artifact in the listing is
skipped and contributes nothing. -/
theorem C6_page_matcher_witness :
    processPage "d" [(10, 10)] ["zzz.png"] (fun _ => (1, 1)) 0 0 ⟨1, []⟩ =
      .ok [] ∧
    processPages "d" [(10, 10)] ["zzz.png"] (fun _ => (1, 1)) 0 0 [⟨1, []⟩] =
      processPages "d" [(10, 10)] ["zzz.png"] (fun _ => (1, 1)) 0 0 [] :=
  (C6_page_matcher 1 [] "d" [(10, 10)] ["zzz.png"] (fun _ => (1, 1)) 0 0
      ⟨1, []⟩ []).2 (by decide) 10 10 (by decide)

/-- C8: a segment whose recognized text is empty or whitespace-only gets
the sentinel `<No Text Detected>` in its report entry; a segment with
non-blank text keeps its text with outer whitespace stripped. -/
theorem C8_sentinel (recog : String → List (List String)) (fname : String) :
    (pyStrip (segTextRaw (recog fname)) = "" →
      segEntry recog fname =
        "[" ++ fname ++ "]\n" ++ "<No Text Detected>" ++ "\n\n") ∧
    (pyStrip (segTextRaw (recog fname)) ≠ "" →
      segEntry recog fname =
        "[" ++ fname ++ "]\n" ++ pyStrip (segTextRaw (recog fname)) ++ "\n\n") := by
  have hsent : pyStrip "<No Text Detected>" = "<No Text Detected>" := by decide
  constructor
  · intro h
    simp only [segEntry]
    rw [if_pos h, hsent]
  · intro h
    simp only [segEntry]
    rw [if_neg h]

/-- Witness for C8: whitespace-only recognition output yields the sentinel
entry. -/
theorem C8_sentinel_witness :
    segEntry (fun _ => [[" ", ""]]) "f.png" =
      "[" ++ "f.png" ++ "]\n" ++ "<No Text Detected>" ++ "\n\n" :=
  (C8_sentinel (fun _ => [[" ", ""]]) "f.png").1 (by decide)

/-- C3 counterexample: two listing orders of the same file set in which two
files lack a parseable box number produce different recognition orders, so
the output is not identical for every shuffle: Python's sort is stable and
breaks ties by listing order. -/
theorem C3_shuffle_counterexample :
    List.Perm (["b.png", "a.png"] : List String) ["a.png", "b.png"] ∧
    extract_box_number "a.png" = none ∧ extract_box_number "b.png" = none ∧
    ocr_segments (fun _ => [["t"]]) [⟨"p", ["a.png", "b.png"]⟩] ≠
      ocr_segments (fun _ => [["t"]]) [⟨"p", ["b.png", "a.png"]⟩] :=
  ⟨by decide, by decide, by decide, by decide⟩

/-- C3 (amended): the recognizer processes a folder's artifacts in
nondecreasing order of the ordinal extracted by the box-number pattern,
with unparseable names last; and for any two listing orders of the same
file set whose extracted ordinals are pairwise distinct, the recognition
output is identical. -/
theorem C3_order_determinism (recog : String → List (List String))
    (pid : String) (l1 l2 : List String) (hperm : List.Perm l1 l2)
    (hdist : l1.Pairwise (fun a b => fkey a ≠ fkey b)) :
    KeySorted (sortFiles (l1.filter (fun n => strEndsWith n ".png"))) ∧
    ocr_segments recog [⟨pid, l1⟩] = ocr_segments recog [⟨pid, l2⟩] := by
  refine ⟨sortFiles_sorted _, ?_⟩
  have hp : List.Perm (l1.filter (fun n => strEndsWith n ".png"))
      (l2.filter (fun n => strEndsWith n ".png")) := hperm.filter _
  have hd1 : (l1.filter (fun n => strEndsWith n ".png")).Pairwise
      (fun a b => fkey a ≠ fkey b) :=
    List.Pairwise.sublist (List.filter_sublist _) hdist
  have hsort : sortFiles (l1.filter (fun n => strEndsWith n ".png")) =
      sortFiles (l2.filter (fun n => strEndsWith n ".png")) := by
    apply sorted_perm_distinct_eq
    · exact ((sortFiles_perm _).trans hp).trans (sortFiles_perm _).symm
    · exact sortFiles_sorted _
    · exact sortFiles_sorted _
    · exact ((sortFiles_perm _).pairwise_iff
        (fun hab => fun he => hab he.symm)).mpr hd1
  simp only [ocr_segments, folderText, List.foldl_cons, List.foldl_nil]
  rw [hsort]

/-- Witness for C3 (amended) on two shuffles of a two-file set with
distinct ordinals. -/
theorem C3_order_determinism_witness :
    KeySorted (sortFiles ((["x_box_2.png", "x_box_1.png"] : List String).filter
      (fun n => strEndsWith n ".png"))) ∧
    ocr_segments (fun _ => [["t"]]) [⟨"p", ["x_box_2.png", "x_box_1.png"]⟩] =
      ocr_segments (fun _ => [["t"]]) [⟨"p", ["x_box_1.png", "x_box_2.png"]⟩] :=
  C3_order_determinism (fun _ => [["t"]]) "p" ["x_box_2.png", "x_box_1.png"]
    ["x_box_1.png", "x_box_2.png"] (by decide) (by decide)

end Surya
